import Mathlib

/-!
Verification of the core of the brain-surf-cli repository.

The development shallowly embeds the four core source files:

* `src/lib/command-parser.js` — the natural-language-to-intent classifier
  (an ordered cascade of JavaScript regular expressions);
* `src/lib/brain-client.js`   — the transport client (`sendCommand`,
  inbound `handleMessage` dispatch);
* `src/lib/session-manager.js` — the file-backed session store
  (`loadSession`, `saveSession`, `addToHistory`, `getHistory`);
* `src/lib/repl.js`           — the REPL orchestrator (`processInput`,
  its `message` listener).

JavaScript regular expressions are embedded by a small executable
backtracking engine (`Rx`, `mall`) whose result list enumerates candidate
matches in exactly the priority order of a JavaScript backtracking engine:
alternation is ordered, greedy quantifiers prefer more iterations, lazy
quantifiers prefer fewer, and a quantifier iteration that consumes nothing
ends the loop.  Each source pattern is transliterated node by node into an
`Rx` term.  Strings are modelled as `List Char`; machine-level JS details
outside the claims (Unicode white-space beyond ASCII, number overflow of
`parseInt`) are noted where they are simplified.
-/

namespace CommandParser

/-- Character predicate for the JS `\s` class (and `String.prototype.trim`),
restricted to the ASCII white-space characters: space, tab, LF, VT, FF, CR. -/
def isWsChar (c : Char) : Bool :=
  c.toNat == 32 || c.toNat == 9 || c.toNat == 10 || c.toNat == 11 ||
  c.toNat == 12 || c.toNat == 13

/-- Character predicate for the JS `\d` class: the digits `0`-`9`. -/
def isDigitChar (c : Char) : Bool :=
  48 ≤ c.toNat && c.toNat ≤ 57

/-- Character predicate for the JS `\w` class: `[A-Za-z0-9_]`. -/
def isWordChar (c : Char) : Bool :=
  (65 ≤ c.toNat && c.toNat ≤ 90) || (97 ≤ c.toNat && c.toNat ≤ 122) ||
  (48 ≤ c.toNat && c.toNat ≤ 57) || c.toNat == 95

/-- Character predicate for the JS `.` class: any character other than a
line terminator (LF, CR, U+2028, U+2029). -/
def isDotChar (c : Char) : Bool :=
  !(c.toNat == 10 || c.toNat == 13 || c.toNat == 8232 || c.toNat == 8233)

/-- JavaScript `String.prototype.trim`: strip white space from both ends. -/
def jsTrim (s : List Char) : List Char :=
  ((s.dropWhile isWsChar).reverse.dropWhile isWsChar).reverse

/-- Character classes occurring in the source patterns. -/
inductive CharCls where
  | anyc
  | wsc
  | digitc
  | wordc
  | nwsc
  | oneOf (cs : List Char)
deriving DecidableEq

/-- Does character `c` belong to class `cl`?  (`ci` is irrelevant for the
classes themselves; literal characters are compared by `litEq` below.) -/
def matchCls (cl : CharCls) (c : Char) : Bool :=
  match cl with
  | .anyc => isDotChar c
  | .wsc => isWsChar c
  | .digitc => isDigitChar c
  | .wordc => isWordChar c
  | .nwsc => !isWsChar c
  | .oneOf cs => cs.contains c

/-- Literal-character comparison; with the `i` flag both sides are lowered. -/
def litEq (ci : Bool) (a b : Char) : Bool :=
  if ci then a.toLower == b.toLower else a == b

/-- Abstract syntax of the regular expressions used by the classifier.
`star true r` is the lazy Kleene star `r*?`; `star false r` the greedy one.
`eos` is the end anchor `$`; the start anchor `^` is expressed by the
matcher only trying position 0 (`Rule.anchored`). -/
inductive Rx where
  | eps
  | lit (c : Char)
  | cls (cl : CharCls)
  | cat (a b : Rx)
  | alt (a b : Rx)
  | star (lazyQ : Bool) (a : Rx)
  | group (idx : Nat) (a : Rx)
  | eos
deriving DecidableEq

/-- Capture-group state: slot `i` holds the text captured by group `i`. -/
abbrev Caps := List (Option (List Char))

/-- Initial capture state (two numbered groups suffice for every pattern). -/
def caps0 : Caps := [none, none, none]

/-- Iterate a quantifier body.  The `fuel` argument only serves termination:
the caller passes `s.length + 1`, and since every retained iteration consumes
at least one character (the `filter` implements the JS rule that an iteration
matching the empty string ends the loop) the fuel is never exhausted.
Result order: a lazy star prefers fewer iterations, a greedy one more. -/
def starRun (body : List Char → Caps → List (List Char × Caps)) (lazyQ : Bool) :
    Nat → List Char → Caps → List (List Char × Caps)
  | 0, s, caps => [(s, caps)]
  | fuel+1, s, caps =>
    let more := ((body s caps).filter (fun p => p.1.length < s.length)).flatMap
      (fun p => starRun body lazyQ fuel p.1 p.2)
    if lazyQ then (s, caps) :: more else more ++ [(s, caps)]

/-- All candidate matches of `r` against `s` starting at the current
position, in backtracking priority order.  Each element is the remaining
suffix paired with the capture state of that candidate. -/
def mall (ci : Bool) : Rx → List Char → Caps → List (List Char × Caps)
  | .eps, s, caps => [(s, caps)]
  | .lit c, s, caps =>
    match s with
    | [] => []
    | d :: rest => if litEq ci c d then [(rest, caps)] else []
  | .cls cl, s, caps =>
    match s with
    | [] => []
    | d :: rest => if matchCls cl d then [(rest, caps)] else []
  | .cat a b, s, caps => (mall ci a s caps).flatMap (fun p => mall ci b p.1 p.2)
  | .alt a b, s, caps => mall ci a s caps ++ mall ci b s caps
  | .star lz a, s, caps => starRun (fun s2 c2 => mall ci a s2 c2) lz (s.length + 1) s caps
  | .group i a, s, caps =>
    (mall ci a s caps).map
      (fun p => (p.1, p.2.set i (some (s.take (s.length - p.1.length)))))
  | .eos, s, caps =>
    match s with
    | [] => [([], caps)]
    | _ :: _ => []

/-- Capture state of the first candidate, i.e. the match JS would report. -/
def headCaps (l : List (List Char × Caps)) : Option Caps :=
  match l with
  | [] => none
  | p :: _ => some p.2

/-- Leftmost search for a pattern without a `^` anchor: try each start
position from the left, as `String.prototype.match` does. -/
def rxSearch (ci : Bool) (r : Rx) : List Char → Option Caps
  | [] => headCaps (mall ci r [] caps0)
  | c :: t =>
    match headCaps (mall ci r (c :: t) caps0) with
    | some cs => some cs
    | none => rxSearch ci r t

/-- The tagged `Command` objects produced by `CommandParser.parse`
(`src/lib/command-parser.js`).  Each constructor corresponds to one value of
the JS `type` field and carries exactly the kind-specific fields the
extractors produce. -/
inductive Command where
  | read_file (filePath : String)
  | write_file (filePath : String)
  | edit_file (filePath : String)
  | list_directory (path : String)
  | search_files (pat : String) (directory : String)
  | create_directory (path : String)
  | git_status
  | git_diff (filePath : Option String)
  | git_log (limit : Nat)
  | git_add (files : List String)
  | git_commit (message : String)
  | git_branch_info
  | analyze_project
  | explain_codebase
  | get_project_structure
  | find_definition (symbol : String) (filePath : Option String)
  | find_references (symbol : String) (filePath : Option String)
  | connect_server (serverId : String) (config : String)
  | list_servers
  | list_tools (serverId : String)
  | query (q : String)
  | unknown (input : String)
deriving DecidableEq

/-- The JS `type` string of a `Command`. -/
def Command.kind : Command → String
  | .read_file _ => "read_file"
  | .write_file _ => "write_file"
  | .edit_file _ => "edit_file"
  | .list_directory _ => "list_directory"
  | .search_files _ _ => "search_files"
  | .create_directory _ => "create_directory"
  | .git_status => "git_status"
  | .git_diff _ => "git_diff"
  | .git_log _ => "git_log"
  | .git_add _ => "git_add"
  | .git_commit _ => "git_commit"
  | .git_branch_info => "git_branch_info"
  | .analyze_project => "analyze_project"
  | .explain_codebase => "explain_codebase"
  | .get_project_structure => "get_project_structure"
  | .find_definition _ _ => "find_definition"
  | .find_references _ _ => "find_references"
  | .connect_server _ _ => "connect_server"
  | .list_servers => "list_servers"
  | .list_tools _ => "list_tools"
  | .query _ => "query"
  | .unknown _ => "unknown"

/-- Concatenation of a list of regular expressions, left to right. -/
def rCat : List Rx → Rx
  | [] => .eps
  | [r] => r
  | r :: rest => .cat r (rCat rest)

/-- Literal word: the characters of `s` in sequence. -/
def rChars : List Char → Rx
  | [] => .eps
  | c :: rest => .cat (.lit c) (rChars rest)

/-- Literal word from a string literal. -/
def rstr (s : String) : Rx := rChars s.data

/-- Ordered alternation `a|b|c|...` of a non-empty list. -/
def rAlts : List Rx → Rx
  | [] => .eps
  | [r] => r
  | r :: rest => .alt r (rAlts rest)

/-- Greedy option `r?`. -/
def rOpt (r : Rx) : Rx := .alt r .eps

/-- Greedy plus `r+`. -/
def rPlus (r : Rx) : Rx := .cat r (.star false r)

/-- Lazy plus `r+?`. -/
def rPlusLazy (r : Rx) : Rx := .cat r (.star true r)

/-- The class `\s+`. -/
def ws1 : Rx := rPlus (.cls .wsc)

/-- The class `\s*`. -/
def ws0 : Rx := .star false (.cls .wsc)

/-- The expression `(.+)` body, i.e. `.+` greedy. -/
def anyPlus : Rx := rPlus (.cls .anyc)

/-- The expression `.*` greedy. -/
def anyStar : Rx := .star false (.cls .anyc)

/-- The expression `.+?` lazy. -/
def anyPlusLazy : Rx := rPlusLazy (.cls .anyc)

/-- The expression `\w+`. -/
def wordPlus : Rx := rPlus (.cls .wordc)

/-- The expression `\d+`. -/
def digPlus : Rx := rPlus (.cls .digitc)

/-- The expression `\S+`. -/
def nwsPlus : Rx := rPlus (.cls .nwsc)

/-- The character class `["']`. -/
def quoteC : Rx := .cls (.oneOf ['"', '\''])

/-- JS `parseInt` on a non-empty string of decimal digits. -/
def digitsToNat (d : List Char) : Nat :=
  d.foldl (fun n c => n * 10 + (c.toNat - 48)) 0

/-- JS `"...".split(/\s+/)` as a one-pass state machine: `skipping = true`
while inside a white-space run.  A trailing run yields a trailing empty
field, as in JS. -/
def splitWsM : Bool → List Char → List Char → List (List Char)
  | skipping, [], cur => if skipping then [[]] else [cur.reverse]
  | skipping, c :: rest, cur =>
    if skipping then
      (if isWsChar c then splitWsM true rest [] else splitWsM false rest [c])
    else
      (if isWsChar c then cur.reverse :: splitWsM true rest []
       else splitWsM false rest (c :: cur))

/-- JS `"...".split(/\s+/)`. -/
def splitWs (l : List Char) : List (List Char) := splitWsM false l []

/-- Group `i` of a capture state. -/
def cap (caps : Caps) (i : Nat) : Option (List Char) := caps.getD i none

/-- Group 1, which is always defined when the patterns below have matched. -/
def cap1 (caps : Caps) : List Char := (cap caps 1).getD []

/-- JS `match[k].trim()` turned into a `String`. -/
def trimS (l : List Char) : String := String.mk (jsTrim l)

/-- JS `x || '.'` applied to an optional capture (`undefined` or the empty
string falls back to `"."`). -/
def jsOrDot (m : Option (List Char)) : String :=
  match m with
  | some d => if d.isEmpty then "." else String.mk d
  | none => "."

/-- One rule of the cascade: the `i` flag, whether the pattern is anchored
with `^` (all but the final `\?$` rule are), the pattern body, and the
extractor building the resulting `Command` from the captures and the
matched input (`match.input`). -/
structure Rule where
  ci : Bool
  anchored : Bool
  rx : Rx
  build : Caps → List Char → Command

/-- Match one rule against the (already trimmed) input. -/
def ruleMatch (r : Rule) (s : List Char) : Option Caps :=
  if r.anchored then headCaps (mall r.ci r.rx s caps0) else rxSearch r.ci r.rx s

/-- Rule 0: `/^(?:read|show|cat|view)\s+(?:file\s+)?(.+)$/i` → `read_file`. -/
def rule_read_file : Rule :=
  Rule.mk true true
    (rCat [rAlts [rstr "read", rstr "show", rstr "cat", rstr "view"], ws1,
      rOpt (.cat (rstr "file") ws1), .group 1 anyPlus, .eos])
    (fun caps _ => .read_file (trimS (cap1 caps)))

/-- Rule 1: `/^(?:write|save)\s+(?:to\s+)?(?:file\s+)?(.+)$/i` → `write_file`. -/
def rule_write_file : Rule :=
  Rule.mk true true
    (rCat [rAlts [rstr "write", rstr "save"], ws1, rOpt (.cat (rstr "to") ws1),
      rOpt (.cat (rstr "file") ws1), .group 1 anyPlus, .eos])
    (fun caps _ => .write_file (trimS (cap1 caps)))

/-- Rule 2: `/^(?:edit|modify)\s+(?:file\s+)?(.+)$/i` → `edit_file`. -/
def rule_edit_file : Rule :=
  Rule.mk true true
    (rCat [rAlts [rstr "edit", rstr "modify"], ws1,
      rOpt (.cat (rstr "file") ws1), .group 1 anyPlus, .eos])
    (fun caps _ => .edit_file (trimS (cap1 caps)))

/-- Rule 3: `/^(?:list|ls|dir)\s*(.*)$/i` → `list_directory` with
`path: match[1].trim() || '.'`. -/
def rule_list_directory : Rule :=
  Rule.mk true true
    (rCat [rAlts [rstr "list", rstr "ls", rstr "dir"], ws0, .group 1 anyStar, .eos])
    (fun caps _ => .list_directory (jsOrDot (some (jsTrim (cap1 caps)))))

/-- Rule 4: `/^(?:search|find|grep)\s+(?:for\s+)?["'](.+?)["'](?:\s+in\s+(.+))?$/i`
→ `search_files` with `pattern: match[1]`, `directory: match[2] || '.'`. -/
def rule_search_files_q : Rule :=
  Rule.mk true true
    (rCat [rAlts [rstr "search", rstr "find", rstr "grep"], ws1,
      rOpt (.cat (rstr "for") ws1), quoteC, .group 1 anyPlusLazy, quoteC,
      rOpt (rCat [ws1, rstr "in", ws1, .group 2 anyPlus]), .eos])
    (fun caps _ => .search_files (String.mk (cap1 caps)) (jsOrDot (cap caps 2)))

/-- Rule 5: `/^(?:search|find|grep)\s+(?:for\s+)?(\S+)(?:\s+in\s+(.+))?$/i`
→ `search_files`. -/
def rule_search_files_w : Rule :=
  Rule.mk true true
    (rCat [rAlts [rstr "search", rstr "find", rstr "grep"], ws1,
      rOpt (.cat (rstr "for") ws1), .group 1 nwsPlus,
      rOpt (rCat [ws1, rstr "in", ws1, .group 2 anyPlus]), .eos])
    (fun caps _ => .search_files (String.mk (cap1 caps)) (jsOrDot (cap caps 2)))

/-- Rule 6: `/^(?:create|mkdir)\s+(?:directory\s+)?(.+)$/i` → `create_directory`. -/
def rule_create_directory : Rule :=
  Rule.mk true true
    (rCat [rAlts [rstr "create", rstr "mkdir"], ws1,
      rOpt (.cat (rstr "directory") ws1), .group 1 anyPlus, .eos])
    (fun caps _ => .create_directory (trimS (cap1 caps)))

/-- Rule 7: `/^git\s+status$/i` → `git_status` (no extractor). -/
def rule_git_status_full : Rule :=
  Rule.mk true true (rCat [rstr "git", ws1, rstr "status", .eos])
    (fun _ _ => .git_status)

/-- Rule 8: `/^(?:git\s+)?(?:show\s+)?(?:status|st)$/i` → `git_status`. -/
def rule_git_status_gen : Rule :=
  Rule.mk true true
    (rCat [rOpt (.cat (rstr "git") ws1), rOpt (.cat (rstr "show") ws1),
      rAlts [rstr "status", rstr "st"], .eos])
    (fun _ _ => .git_status)

/-- Rule 9: `/^git\s+diff(?:\s+(.+))?$/i` → `git_diff` with
`filePath: match[1]?.trim()`. -/
def rule_git_diff_full : Rule :=
  Rule.mk true true
    (rCat [rstr "git", ws1, rstr "diff", rOpt (.cat ws1 (.group 1 anyPlus)), .eos])
    (fun caps _ => .git_diff ((cap caps 1).map (fun l => trimS l)))

/-- Rule 10: `/^(?:show\s+)?diff(?:\s+(?:for\s+)?(.+))?$/i` → `git_diff`. -/
def rule_git_diff_gen : Rule :=
  Rule.mk true true
    (rCat [rOpt (.cat (rstr "show") ws1), rstr "diff",
      rOpt (rCat [ws1, rOpt (.cat (rstr "for") ws1), .group 1 anyPlus]), .eos])
    (fun caps _ => .git_diff ((cap caps 1).map (fun l => trimS l)))

/-- Rule 11: `/^git\s+log(?:\s+(\d+))?$/i` → `git_log` with
`limit: match[1] ? parseInt(match[1]) : 10`. -/
def rule_git_log_full : Rule :=
  Rule.mk true true
    (rCat [rstr "git", ws1, rstr "log", rOpt (.cat ws1 (.group 1 digPlus)), .eos])
    (fun caps _ => .git_log (match cap caps 1 with
      | some d => digitsToNat d
      | none => 10))

/-- Rule 12: `/^(?:show\s+)?(?:git\s+)?(?:history|log)(?:\s+(\d+))?$/i` → `git_log`. -/
def rule_git_log_gen : Rule :=
  Rule.mk true true
    (rCat [rOpt (.cat (rstr "show") ws1), rOpt (.cat (rstr "git") ws1),
      rAlts [rstr "history", rstr "log"], rOpt (.cat ws1 (.group 1 digPlus)), .eos])
    (fun caps _ => .git_log (match cap caps 1 with
      | some d => digitsToNat d
      | none => 10))

/-- Rule 13: `/^git\s+add\s+(.+)$/i` → `git_add` with
`files: match[1].trim().split(/\s+/)`. -/
def rule_git_add_full : Rule :=
  Rule.mk true true
    (rCat [rstr "git", ws1, rstr "add", ws1, .group 1 anyPlus, .eos])
    (fun caps _ => .git_add ((splitWs (jsTrim (cap1 caps))).map String.mk))

/-- Rule 14: `/^(?:stage|add)\s+(.+)$/i` → `git_add`. -/
def rule_git_add_gen : Rule :=
  Rule.mk true true
    (rCat [rAlts [rstr "stage", rstr "add"], ws1, .group 1 anyPlus, .eos])
    (fun caps _ => .git_add ((splitWs (jsTrim (cap1 caps))).map String.mk))

/-- Rule 15: `/^git\s+commit\s+(?:-m\s+)?["'](.+)["']$/i` → `git_commit` with
`message: match[1]`. -/
def rule_git_commit_full : Rule :=
  Rule.mk true true
    (rCat [rstr "git", ws1, rstr "commit", ws1, rOpt (.cat (rstr "-m") ws1),
      quoteC, .group 1 anyPlus, quoteC, .eos])
    (fun caps _ => .git_commit (String.mk (cap1 caps)))

/-- Rule 16: `/^commit\s+["'](.+)["']$/i` → `git_commit`. -/
def rule_git_commit_gen : Rule :=
  Rule.mk true true
    (rCat [rstr "commit", ws1, quoteC, .group 1 anyPlus, quoteC, .eos])
    (fun caps _ => .git_commit (String.mk (cap1 caps)))

/-- Rule 17: `/^(?:git\s+)?(?:branch|branches)$/i` → `git_branch_info`. -/
def rule_git_branch_info : Rule :=
  Rule.mk true true
    (rCat [rOpt (.cat (rstr "git") ws1), rAlts [rstr "branch", rstr "branches"], .eos])
    (fun _ _ => .git_branch_info)

/-- Rule 18: `/^(?:analyze|analysis)\s+(?:project|codebase)$/i` → `analyze_project`. -/
def rule_analyze_project : Rule :=
  Rule.mk true true
    (rCat [rAlts [rstr "analyze", rstr "analysis"], ws1,
      rAlts [rstr "project", rstr "codebase"], .eos])
    (fun _ _ => .analyze_project)

/-- Rule 19: `/^(?:explain|describe)\s+(?:this\s+)?(?:project|codebase|architecture)$/i`
→ `explain_codebase`. -/
def rule_explain_codebase : Rule :=
  Rule.mk true true
    (rCat [rAlts [rstr "explain", rstr "describe"], ws1,
      rOpt (.cat (rstr "this") ws1),
      rAlts [rstr "project", rstr "codebase", rstr "architecture"], .eos])
    (fun _ _ => .explain_codebase)

/-- Rule 20: `/^(?:show\s+)?(?:project\s+)?structure$/i` → `get_project_structure`. -/
def rule_get_project_structure : Rule :=
  Rule.mk true true
    (rCat [rOpt (.cat (rstr "show") ws1), rOpt (.cat (rstr "project") ws1),
      rstr "structure", .eos])
    (fun _ _ => .get_project_structure)

/-- Rule 21: `/^(?:find|search)\s+(?:definition\s+(?:of\s+)?)?(\w+)(?:\s+in\s+(.+))?$/i`
→ `find_definition` with `symbol: match[1]`, `filePath: match[2]?.trim()`. -/
def rule_find_definition : Rule :=
  Rule.mk true true
    (rCat [rAlts [rstr "find", rstr "search"], ws1,
      rOpt (rCat [rstr "definition", ws1, rOpt (.cat (rstr "of") ws1)]),
      .group 1 wordPlus, rOpt (rCat [ws1, rstr "in", ws1, .group 2 anyPlus]), .eos])
    (fun caps _ => .find_definition (String.mk (cap1 caps))
      ((cap caps 2).map (fun l => trimS l)))

/-- Rule 22: `/^(?:find|search)\s+(?:references\s+(?:to\s+)?)?(\w+)(?:\s+in\s+(.+))?$/i`
→ `find_references`. -/
def rule_find_references : Rule :=
  Rule.mk true true
    (rCat [rAlts [rstr "find", rstr "search"], ws1,
      rOpt (rCat [rstr "references", ws1, rOpt (.cat (rstr "to") ws1)]),
      .group 1 wordPlus, rOpt (rCat [ws1, rstr "in", ws1, .group 2 anyPlus]), .eos])
    (fun caps _ => .find_references (String.mk (cap1 caps))
      ((cap caps 2).map (fun l => trimS l)))

/-- Rule 23: `/^(?:where\s+is|what\s+is)\s+(\w+)(?:\s+(?:defined|used))?$/i`
→ `find_definition` with `symbol: match[1]` only. -/
def rule_where_is : Rule :=
  Rule.mk true true
    (rCat [rAlts [rCat [rstr "where", ws1, rstr "is"], rCat [rstr "what", ws1, rstr "is"]],
      ws1, .group 1 wordPlus,
      rOpt (.cat ws1 (rAlts [rstr "defined", rstr "used"])), .eos])
    (fun caps _ => .find_definition (String.mk (cap1 caps)) none)

/-- Rule 24: `/^connect\s+(?:to\s+)?server\s+(\w+)\s+(?:with\s+)?(?:config\s+)?(.+)$/i`
→ `connect_server` with `serverId: match[1]`, `config: match[2].trim()`. -/
def rule_connect_server_full : Rule :=
  Rule.mk true true
    (rCat [rstr "connect", ws1, rOpt (.cat (rstr "to") ws1), rstr "server", ws1,
      .group 1 wordPlus, ws1, rOpt (.cat (rstr "with") ws1),
      rOpt (.cat (rstr "config") ws1), .group 2 anyPlus, .eos])
    (fun caps _ => .connect_server (String.mk (cap1 caps))
      (trimS ((cap caps 2).getD [])))

/-- Rule 25: `/^connect\s+(\w+)\s+(.+)$/i` → `connect_server`. -/
def rule_connect_server_gen : Rule :=
  Rule.mk true true
    (rCat [rstr "connect", ws1, .group 1 wordPlus, ws1, .group 2 anyPlus, .eos])
    (fun caps _ => .connect_server (String.mk (cap1 caps))
      (trimS ((cap caps 2).getD [])))

/-- Rule 26: `/^(?:list|show)\s+servers?$/i` → `list_servers`. -/
def rule_list_servers_full : Rule :=
  Rule.mk true true
    (rCat [rAlts [rstr "list", rstr "show"], ws1, rstr "server",
      rOpt (.lit 's'), .eos])
    (fun _ _ => .list_servers)

/-- Rule 27: `/^servers?$/i` → `list_servers`. -/
def rule_list_servers_gen : Rule :=
  Rule.mk true true (rCat [rstr "server", rOpt (.lit 's'), .eos])
    (fun _ _ => .list_servers)

/-- Rule 28: `/^(?:list|show)\s+tools?\s+(?:from\s+)?(?:server\s+)?(\w+)$/i`
→ `list_tools` with `serverId: match[1]`. -/
def rule_list_tools_full : Rule :=
  Rule.mk true true
    (rCat [rAlts [rstr "list", rstr "show"], ws1, rstr "tool", rOpt (.lit 's'),
      ws1, rOpt (.cat (rstr "from") ws1), rOpt (.cat (rstr "server") ws1),
      .group 1 wordPlus, .eos])
    (fun caps _ => .list_tools (String.mk (cap1 caps)))

/-- Rule 29: `/^tools?\s+(?:from\s+)?(\w+)$/i` → `list_tools`. -/
def rule_list_tools_gen : Rule :=
  Rule.mk true true
    (rCat [rstr "tool", rOpt (.lit 's'), ws1, rOpt (.cat (rstr "from") ws1),
      .group 1 wordPlus, .eos])
    (fun caps _ => .list_tools (String.mk (cap1 caps)))

/-- Rule 30: `/^query:\s*(.+)$/i` → `query` with `query: match[1].trim()`. -/
def rule_query_explicit : Rule :=
  Rule.mk true true
    (rCat [rstr "query:", ws0, .group 1 anyPlus, .eos])
    (fun caps _ => .query (trimS (cap1 caps)))

/-- Rule 31: `/^ask:\s*(.+)$/i` → `query`. -/
def rule_ask_explicit : Rule :=
  Rule.mk true true
    (rCat [rstr "ask:", ws0, .group 1 anyPlus, .eos])
    (fun caps _ => .query (trimS (cap1 caps)))

/-- Rule 32:
`/^(?:what|how|why|when|where|who|can|could|would|should|is|are|do|does|did|will|explain|tell|describe)\s+/i`
→ `query` with `query: match.input` (no `$` anchor). -/
def rule_question_words : Rule :=
  Rule.mk true true
    (.cat (rAlts [rstr "what", rstr "how", rstr "why", rstr "when", rstr "where",
      rstr "who", rstr "can", rstr "could", rstr "would", rstr "should",
      rstr "is", rstr "are", rstr "do", rstr "does", rstr "did", rstr "will",
      rstr "explain", rstr "tell", rstr "describe"]) ws1)
    (fun _ input => .query (String.mk input))

/-- Rule 33: `/\?$/` (no `i` flag, no `^` anchor) → `query` with
`query: match.input`. -/
def rule_question_mark : Rule :=
  Rule.mk false false (.cat (.lit '?') .eos)
    (fun _ input => .query (String.mk input))

/-- The classifier's ordered pattern list (`this.patterns` in the source),
in declaration order. -/
def rules : List Rule :=
  [rule_read_file, rule_write_file, rule_edit_file, rule_list_directory,
   rule_search_files_q, rule_search_files_w, rule_create_directory,
   rule_git_status_full, rule_git_status_gen, rule_git_diff_full,
   rule_git_diff_gen, rule_git_log_full, rule_git_log_gen, rule_git_add_full,
   rule_git_add_gen, rule_git_commit_full, rule_git_commit_gen,
   rule_git_branch_info, rule_analyze_project, rule_explain_codebase,
   rule_get_project_structure, rule_find_definition, rule_find_references,
   rule_where_is, rule_connect_server_full, rule_connect_server_gen,
   rule_list_servers_full, rule_list_servers_gen, rule_list_tools_full,
   rule_list_tools_gen, rule_query_explicit, rule_ask_explicit,
   rule_question_words, rule_question_mark]

/-- The cascade: try each rule in order; the first match wins; no match
yields `unknown` carrying the trimmed input. -/
def parseCore : List Rule → List Char → Command
  | [], s => .unknown (String.mk s)
  | r :: rs, s =>
    match ruleMatch r s with
    | some caps => r.build caps s
    | none => parseCore rs s

/-- `CommandParser.parse`: trim the input, then run the cascade.  A total
function — the JS method contains no `throw` and never raises. -/
def parse (input : String) : Command := parseCore rules (jsTrim input.data)

/-- JS `String.prototype.includes`: does `sub` occur contiguously in the
second argument? -/
def listIncludes (sub : List Char) : List Char → Bool
  | [] => sub.isEmpty
  | c :: t => List.isPrefixOf sub (c :: t) || listIncludes sub t

/-- `CommandParser.isDevelopmentCommand`: fixed-vocabulary keyword test on
the lowercased input. -/
def isDevelopmentCommand (input : String) : Bool :=
  let devKeywords := ["read", "write", "edit", "file", "list", "search", "find",
    "git", "status", "diff", "commit", "add", "stage",
    "analyze", "explain", "structure", "definition", "references"]
  devKeywords.any (fun keyword =>
    listIncludes keyword.data (input.data.map Char.toLower))

/-- The category table of `CommandParser.getCommandCategory`. -/
def categories : List (String × List String) :=
  [("file_operations", ["read_file", "write_file", "edit_file", "list_directory",
     "search_files", "create_directory"]),
   ("git_operations", ["git_status", "git_diff", "git_log", "git_add",
     "git_commit", "git_branch_info"]),
   ("codebase_analysis", ["analyze_project", "explain_codebase",
     "get_project_structure", "find_definition", "find_references"]),
   ("server_management", ["connect_server", "list_servers", "list_tools"]),
   ("queries", ["query"])]

/-- `CommandParser.getCommandCategory`: first category whose list contains
the kind, else `"unknown"`. -/
def getCommandCategory (t : String) : String :=
  let rec go : List (String × List String) → String
    | [] => "unknown"
    | kv :: rest => if kv.2.contains t then kv.1 else go rest
  go categories

/-- The closed set of kinds the classifier can produce: the `type` field of
each rule, plus `unknown`. -/
def allKinds : List String :=
  ["read_file", "write_file", "edit_file", "list_directory", "search_files",
   "create_directory", "git_status", "git_diff", "git_log", "git_add",
   "git_commit", "git_branch_info", "analyze_project", "explain_codebase",
   "get_project_structure", "find_definition", "find_references",
   "connect_server", "list_servers", "list_tools", "query", "unknown"]

/-- Does rule number `i` of the list match input `s`? -/
def ruleIdxMatch (l : List Rule) (i : Nat) (s : List Char) : Bool :=
  match l.get? i with
  | some r => (ruleMatch r s).isSome
  | none => false

/-- The command rule number `i` produces on input `s` (its extractor applied
to its captures), `unknown` outside the list or when it does not match. -/
def applyIdx (l : List Rule) (i : Nat) (s : List Char) : Command :=
  match l.get? i with
  | some r =>
    match ruleMatch r s with
    | some caps => r.build caps s
    | none => .unknown (String.mk s)
  | none => .unknown (String.mk s)

/-- The suffixes of `l` in greedy-star preference order: longest consumption
(shortest remaining suffix) first. -/
def tailsGreedy : List Char → List (List Char)
  | [] => [[]]
  | c :: rest => tailsGreedy rest ++ [c :: rest]

end CommandParser

/-- JSON-like values carried by protocol frames.  `jundef` models the
JavaScript `undefined` value (an absent property read). -/
inductive JVal where
  | jnull
  | jundef
  | jbool (b : Bool)
  | jnum (n : Int)
  | jstr (s : String)
  | jarr (xs : List JVal)
  | jobj (fields : List (String × JVal))

/-- A protocol frame: a JSON object, modelled as its field list. -/
abbrev Frame := List (String × JVal)

/-- JS property lookup `o.k` on a frame (objects here carry each key once). -/
def lookupJ (o : Frame) (k : String) : Option JVal := List.lookup k o

namespace BrainClient

/-- The only error `sendCommand` can raise: `new Error('Not connected to
Brain server')`. -/
inductive ClientErr where
  | notConnected
deriving DecidableEq

/-- Observable state of a `BrainClient`: the `connected` flag and the
sequence of frames written to the socket so far.  The model has no reply
channel: `sendCommand` is fire-and-forget in the source and its result
does not depend on any inbound traffic. -/
structure ClientState where
  connected : Bool
  sent : List Frame

/-- The serialized outbound object `{command, ...params}`: the `command`
key first, then the spread parameters (JS object-spread semantics; the
source never passes a `command` key inside `params`). -/
def outFrame (cmd : String) (params : Frame) : Frame :=
  ("command", JVal.jstr cmd) :: params

/-- `BrainClient.sendCommand`: throw `NotConnected` when the `connected`
flag is down — before the outbound frame is even built — otherwise append
exactly one serialized frame to the socket and return. -/
def sendCommand (st : ClientState) (cmd : String) (params : Frame) :
    Option ClientErr × ClientState :=
  if !st.connected then (some .notConnected, st)
  else (none, ClientState.mk st.connected (st.sent ++ [outFrame cmd params]))

/-- The eight handlers of the fixed dispatch table in
`BrainClient.handleMessage`. -/
inductive Handler where
  | serverConnected
  | serverDisconnected
  | toolsList
  | serversList
  | queryResponse
  | thinking
  | statusMsg
  | errorMsg
deriving DecidableEq

/-- The `switch (type)` of `BrainClient.handleMessage`: which handler a
`type` value selects.  A missing `type` (i.e. `undefined`) and any
non-string or unrecognized value fall to the `default` branch, which
invokes no handler. -/
def dispatchOf (tv : Option JVal) : Option Handler :=
  match tv with
  | some (.jstr t) =>
    if t = "server_connected" then some .serverConnected
    else if t = "server_disconnected" then some .serverDisconnected
    else if t = "tools_list" then some .toolsList
    else if t = "servers_list" then some .serversList
    else if t = "query_response" then some .queryResponse
    else if t = "thinking" then some .thinking
    else if t = "status" then some .statusMsg
    else if t = "error" then some .errorMsg
    else none
  | _ => none

/-- `BrainClient.handleMessage` on a decoded (well-formed) frame: select a
handler from the dispatch table (or none), and re-emit the frame verbatim
on the generic `message` channel (`this.emit('message', message)`). -/
def handleMessage (frame : Frame) : Option Handler × Frame :=
  (dispatchOf (lookupJ frame "type"), frame)

/-- The recognized `type` discriminants: the case labels of the dispatch
switch (the spec groups them into seven bullet items). -/
def recognizedTypes : List String :=
  ["server_connected", "server_disconnected", "tools_list", "servers_list",
   "query_response", "thinking", "status", "error"]

end BrainClient

namespace SessionManager

/-- An entry as passed to `addToHistory` (before stamping): `{type, content}`. -/
structure EntryIn where
  etype : String
  content : String
deriving DecidableEq

/-- A stored history entry `{type, content, timestamp}`. -/
structure Entry where
  etype : String
  content : String
  timestamp : String
deriving DecidableEq

/-- A persisted session record `{id, created, history}`. -/
structure Session where
  id : String
  created : String
  history : List Entry
deriving DecidableEq

/-- The session directory: one record per file name (the session id).
File-system faults are folded into absence: `loadSession` returns `null`
both when the file is missing and when it is unreadable/unparsable, which
the model renders as `none`. -/
def Store := String → Option Session

/-- `SessionManager.loadSession`: read `${sessionId}.json`, or `null`. -/
def loadSession (st : Store) (sessionId : String) : Option Session := st sessionId

/-- `SessionManager.saveSession`: write the whole record to
`${session.id}.json` (whole-file rewrite keyed by the record's own id). -/
def saveSession (st : Store) (session : Session) : Store :=
  fun k => if k = session.id then some session else st k

/-- `SessionManager.addToHistory`: load the record; when present, push the
entry extended with a freshly stamped timestamp (`now` models
`new Date().toISOString()`) and persist the whole record; when the record
is missing or unreadable, do nothing — the method body is a single
`if (session)` guard, so it never raises. -/
def addToHistory (st : Store) (now : String) (sessionId : String) (e : EntryIn) : Store :=
  match loadSession st sessionId with
  | some session =>
    saveSession st
      (Session.mk session.id session.created
        (session.history ++ [Entry.mk e.etype e.content now]))
  | none => st

/-- `SessionManager.getHistory`: the record's history, or `[]`. -/
def getHistory (st : Store) (sessionId : String) : List Entry :=
  match loadSession st sessionId with
  | some session => session.history
  | none => []

end SessionManager

/-- A one-session concrete store used by the C5 witness. -/
def c5Store : SessionManager.Store :=
  fun k => if k = "s1" then some (SessionManager.Session.mk "s1" "t0" []) else none

namespace BrainREPL

open CommandParser

/-- Parameter values serialized by `JSON.stringify` inside the rewritten
operation strings of `repl.js`.  `pundefined` is a property holding JS
`undefined`, which `JSON.stringify` omits from the output object. -/
inductive PVal where
  | ps (s : String)
  | pn (n : Nat)
  | parr (xs : List String)
  | pundefined
deriving DecidableEq

/-- JSON string escaping (the characters occurring here: `"` and `\`). -/
def jsonEsc (s : String) : String :=
  String.mk (s.data.flatMap (fun c =>
    if c == '"' || c == '\\' then ['\\', c] else [c]))

/-- Serialize one parameter value as `JSON.stringify` does. -/
def stringifyP : PVal → String
  | .ps s => "\"" ++ jsonEsc s ++ "\""
  | .pn n => toString n
  | .parr xs => "[" ++ String.intercalate "," (xs.map (fun x => "\"" ++ jsonEsc x ++ "\"")) ++ "]"
  | .pundefined => ""

/-- `JSON.stringify` of a parameter object; `undefined`-valued keys are
omitted. -/
def stringifyObj (fields : List (String × PVal)) : String :=
  "\x7b" ++ String.intercalate ","
    (fields.filterMap (fun kv =>
      match kv.2 with
      | .pundefined => none
      | v => some ("\"" ++ jsonEsc kv.1 ++ "\":" ++ stringifyP v))) ++ "\x7d"

/-- The externally observable actions of one `processInput` run or one
inbound-message callback, in program order.  `appendHistory` is a
`sessionManager.addToHistory` call; `sendQuery` a `client.sendQuery`;
the remaining constructors are the built-in commands and direct client
calls. -/
inductive Action where
  | appendHistory (sessionId : String) (etype : String) (content : JVal)
  | exitRepl
  | showHelp
  | showStatusA
  | clearScreen
  | showHistoryA
  | showSessionsA
  | sendQuery (q : String)
  | connectServerA (serverId : String) (config : String)
  | listServersA
  | listToolsA (serverId : String)
  | toolsHint

/-- The instruction string built by `handleFileOperation`. -/
def fileOpQuery (operation : String) (params : List (String × PVal)) : String :=
  "Use the filesystem server to perform: " ++ operation ++
    " with parameters: " ++ stringifyObj params

/-- The instruction string built by `handleGitOperation`. -/
def gitOpQuery (operation : String) (params : List (String × PVal)) : String :=
  "Use the git server to perform: " ++ operation ++
    " with parameters: " ++ stringifyObj params

/-- The instruction string built by `handleCodebaseOperation`. -/
def codebaseOpQuery (operation : String) (params : List (String × PVal)) : String :=
  "Use the codebase server to perform: " ++ operation ++
    " with parameters: " ++ stringifyObj params

/-- An optional string parameter (`undefined` when absent). -/
def optPS : Option String → PVal
  | some s => .ps s
  | none => .pundefined

/-- JS `String.prototype.toLowerCase` (ASCII). -/
def lowerStr (s : String) : String := String.mk (s.data.map Char.toLower)

/-- The `switch (command.type)` dispatch of `BrainREPL.processInput`,
applied after the built-in commands have been ruled out.  `input` is the
trimmed user line (used by the `unknown` branch), `cmd` the parsed
command. -/
def dispatch (sessionId : String) (input : String) (cmd : Command) : List Action :=
  match cmd with
  | .read_file fp => [.sendQuery (fileOpQuery "read_file" [("path", .ps fp)])]
  | .write_file fp => [.sendQuery (fileOpQuery "write_file" [("path", .ps fp)])]
  | .edit_file fp => [.sendQuery (fileOpQuery "edit_file" [("path", .ps fp)])]
  | .list_directory p => [.sendQuery (fileOpQuery "list_directory" [("path", .ps p)])]
  | .search_files pat dir =>
    [.sendQuery (fileOpQuery "search_files" [("pattern", .ps pat), ("directory", .ps dir)])]
  | .create_directory p => [.sendQuery (fileOpQuery "create_directory" [("path", .ps p)])]
  | .git_status => [.sendQuery (gitOpQuery "git_status" [])]
  | .git_diff fp => [.sendQuery (gitOpQuery "git_diff" [("file_path", optPS fp)])]
  | .git_log lim => [.sendQuery (gitOpQuery "git_log" [("limit", .pn lim)])]
  | .git_add files => [.sendQuery (gitOpQuery "git_add" [("file_paths", .parr files)])]
  | .git_commit msg => [.sendQuery (gitOpQuery "git_commit" [("message", .ps msg)])]
  | .git_branch_info => [.sendQuery (gitOpQuery "git_branch_info" [])]
  | .analyze_project => [.sendQuery (codebaseOpQuery "analyze_project" [])]
  | .explain_codebase => [.sendQuery (codebaseOpQuery "explain_codebase" [])]
  | .get_project_structure => [.sendQuery (codebaseOpQuery "get_project_structure" [])]
  | .find_definition sym fp =>
    [.sendQuery (codebaseOpQuery "find_definition" [("symbol", .ps sym), ("file_path", optPS fp)])]
  | .find_references sym fp =>
    [.sendQuery (codebaseOpQuery "find_references" [("symbol", .ps sym), ("file_path", optPS fp)])]
  | .connect_server sv cfg => [.connectServerA sv cfg]
  | .list_servers => [.listServersA]
  | .list_tools sv => if sv = "" then [.toolsHint] else [.listToolsA sv]
  | .query q => [.appendHistory sessionId "query" (.jstr q), .sendQuery q]
  | .unknown _ =>
    if isDevelopmentCommand input then
      [.sendQuery ("As a development assistant, help with: " ++ input)]
    else
      [.appendHistory sessionId "query" (.jstr input), .sendQuery input]

/-- `BrainREPL.processInput` on the trimmed, non-blank user line: first the
unconditional history append of a `user` entry, then the built-in command
short-circuits, then classification and dispatch. -/
def processInput (sessionId : String) (input : String) : List Action :=
  Action.appendHistory sessionId "user" (.jstr input) ::
    (if lowerStr input = "exit" || lowerStr input = "quit" then [.exitRepl]
     else if lowerStr input = "help" then [.showHelp]
     else if lowerStr input = "status" then [.showStatusA]
     else if lowerStr input = "clear" then [.clearScreen]
     else if lowerStr input = "history" then [.showHistoryA]
     else if (lowerStr input).startsWith "sessions" then [.showSessionsA]
     else dispatch sessionId input (parse input))

/-- One iteration of `BrainREPL.mainLoop` on a submitted raw line: blank
lines are skipped before `processInput` runs on the trimmed text. -/
def replLine (sessionId : String) (raw : String) : List Action :=
  if (CommandParser.jsTrim raw.data).isEmpty then []
  else processInput sessionId (String.mk (CommandParser.jsTrim raw.data))

/-- `BrainREPL.handleMessage` (the `message` listener): append a `response`
entry exactly when the inbound frame's discriminant is `query_response`;
its content is the frame's `response` property. -/
def replHandleMessage (sessionId : String) (frame : Frame) : List Action :=
  match lookupJ frame "type" with
  | some (.jstr t) =>
    if t = "query_response" then
      [.appendHistory sessionId "response" ((lookupJ frame "response").getD .jundef)]
    else []
  | _ => []

/-- Proof-side projection: is an action an append of a `response` entry? -/
def Action.isResponseAppend : Action → Bool
  | .appendHistory _ t _ => t == "response"
  | _ => false

end BrainREPL

namespace CommandParser

/-- The cascade returns the result of the earliest matching rule: whenever
rule `i` matches, the result comes from some matching rule `k ≤ i`. -/
theorem parseCore_first (l : List Rule) (s : List Char) :
    ∀ i, ruleIdxMatch l i s = true →
      ∃ k, k ≤ i ∧ ruleIdxMatch l k s = true ∧ parseCore l s = applyIdx l k s := by
  induction l with
  | nil => intro i h; simp [ruleIdxMatch, List.get?] at h
  | cons r rs ih =>
    intro i h
    cases hm : ruleMatch r s with
    | some caps =>
      refine ⟨0, Nat.zero_le i, ?_, ?_⟩
      · simp [ruleIdxMatch, List.get?, hm]
      · simp [parseCore, applyIdx, List.get?, hm]
    | none =>
      cases i with
      | zero => simp [ruleIdxMatch, List.get?, hm] at h
      | succ i2 =>
        have h2 : ruleIdxMatch rs i2 s = true := by
          simpa [ruleIdxMatch, List.get?] using h
        obtain ⟨k, hk, hmk, hp⟩ := ih i2 h2
        refine ⟨k + 1, Nat.succ_le_succ hk, ?_, ?_⟩
        · simpa [ruleIdxMatch, List.get?] using hmk
        · simpa [parseCore, hm, applyIdx, List.get?] using hp

/-- When no rule matches, the cascade returns `unknown` with the input. -/
theorem parseCore_nomatch (l : List Rule) (s : List Char)
    (h : ∀ r ∈ l, ruleMatch r s = none) :
    parseCore l s = Command.unknown (String.mk s) := by
  induction l with
  | nil => rfl
  | cons r rs ih =>
    have hr : ruleMatch r s = none := h r (by simp)
    rw [parseCore, hr]
    exact ih (fun r2 hr2 => h r2 (by simp [hr2]))

/-- Every rule's extractor produces a command whose kind is in `allKinds`. -/
theorem build_kind_mem (r : Rule) (hr : r ∈ rules) (caps : Caps) (s : List Char) :
    (r.build caps s).kind ∈ allKinds := by
  fin_cases hr <;> exact of_decide_eq_true rfl

/-- Kind closure of the cascade, given kind closure of each rule. -/
theorem parseCore_kind_mem (l : List Rule)
    (hl : ∀ r ∈ l, ∀ caps s, (r.build caps s).kind ∈ allKinds) (s : List Char) :
    (parseCore l s).kind ∈ allKinds := by
  induction l with
  | nil => simp [parseCore, Command.kind, allKinds]
  | cons r rs ih =>
    cases hm : ruleMatch r s with
    | some caps =>
      rw [parseCore, hm]
      exact hl r (by simp) caps s
    | none =>
      rw [parseCore, hm]
      exact ih (fun r2 hr2 caps s2 => hl r2 (by simp [hr2]) caps s2)

/-- Every non-`unknown` kind is assigned one of the five categories. -/
theorem allKinds_categorized :
    ∀ k ∈ allKinds, k ≠ "unknown" → getCommandCategory k ≠ "unknown" := by
  decide

end CommandParser

open CommandParser in
/-- C1.  Declaration order is the tie-break of the classifier: whenever two
rules `i < j` both match the trimmed input, the parse result is produced by
a matching rule declared no later than `i` (hence strictly earlier than
`j`); in particular the bare input `"status"` is classified `git_status`
via the generic status rule of the version-control family. -/
theorem spec_c1 :
    (∀ (input : String) (i j : Nat), i < j →
      ruleIdxMatch rules i (jsTrim input.data) = true →
      ruleIdxMatch rules j (jsTrim input.data) = true →
      ∃ k, k ≤ i ∧ ruleIdxMatch rules k (jsTrim input.data) = true ∧
        parse input = applyIdx rules k (jsTrim input.data))
    ∧ parse "status" = Command.git_status := by
  constructor
  · intro input i j _ hi _
    exact parseCore_first rules (jsTrim input.data) i hi
  · decide

open CommandParser in
/-- Witness for C1 at a concrete overlap: `"git status"` is matched both by
rule 7 (`/^git\s+status$/i`) and rule 8 (the generic status rule), and the
result comes from a rule with index at most 7. -/
theorem spec_c1_witness :
    ∃ k, k ≤ 7 ∧ ruleIdxMatch rules k (jsTrim ("git status" : String).data) = true ∧
      parse "git status" = applyIdx rules k (jsTrim ("git status" : String).data) :=
  spec_c1.1 "git status" 7 8 (by decide) (by decide) (by decide)

open CommandParser in
/-- C2.  `parse` is total (a Lean function; the JS method contains no
`throw`): when no rule matches the trimmed input the result is `unknown`
carrying the trimmed text, and the empty and all-white-space inputs yield
`unknown` with empty content. -/
theorem spec_c2 :
    (∀ input : String,
      (∀ r ∈ rules, ruleMatch r (jsTrim input.data) = none) →
      parse input = Command.unknown (String.mk (jsTrim input.data)))
    ∧ parse "" = Command.unknown ""
    ∧ parse "   " = Command.unknown "" := by
  refine ⟨?_, by decide, by decide⟩
  intro input h
  exact parseCore_nomatch rules (jsTrim input.data) h

open CommandParser in
/-- Witness for C2: no rule matches `"zzz"`, and its parse is `unknown "zzz"`. -/
theorem spec_c2_witness : parse "zzz" = Command.unknown "zzz" :=
  spec_c2.1 "zzz" (by decide)

open CommandParser in
/-- C8.  `"git commit \"fix bug\""` is classified `git_commit` with the
quotes stripped from the message, and none of the 15 rules declared before
the quoted-commit rule matches the input. -/
theorem spec_c8 :
    parse "git commit \"fix bug\"" = Command.git_commit "fix bug"
    ∧ ∀ k, k < 15 →
        ruleIdxMatch rules k (jsTrim ("git commit \"fix bug\"" : String).data) = false := by
  exact ⟨by decide, by decide⟩

open CommandParser in
/-- Witness for C8 at rule index 0. -/
theorem spec_c8_witness :
    parse "git commit \"fix bug\"" = Command.git_commit "fix bug"
    ∧ ruleIdxMatch rules 0 (jsTrim ("git commit \"fix bug\"" : String).data) = false :=
  ⟨spec_c8.1, spec_c8.2 0 (by decide)⟩

open CommandParser in
/-- C9.  Closed-kind invariant: every parse result's kind lies in the fixed
22-element set, and every kind other than `unknown` is assigned one of the
five categories by `getCommandCategory`. -/
theorem spec_c9 : ∀ input : String,
    (parse input).kind ∈ allKinds
    ∧ ((parse input).kind ≠ "unknown" →
        getCommandCategory (parse input).kind ≠ "unknown") := by
  intro input
  have hmem : (parse input).kind ∈ allKinds :=
    parseCore_kind_mem rules (fun r hr caps s => build_kind_mem r hr caps s)
      (jsTrim input.data)
  exact ⟨hmem, fun hne => allKinds_categorized _ hmem hne⟩

open CommandParser in
/-- Witness for C9 at `"git status"`: kind `git_status`, category
`git_operations`. -/
theorem spec_c9_witness :
    (parse "git status").kind ∈ allKinds
    ∧ getCommandCategory (parse "git status").kind ≠ "unknown" :=
  ⟨(spec_c9 "git status").1, (spec_c9 "git status").2 (by decide)⟩

/-- C3.  `sendCommand` fails with `NotConnected` when not connected, leaving
the socket untouched (the returned state is the argument state, so nothing
was written); when connected it writes exactly one serialized
`{command, ...params}` frame and returns — the model has no reply channel,
mirroring the fire-and-forget source. -/
theorem spec_c3 : ∀ (sent : List Frame) (cmd : String) (params : Frame),
    BrainClient.sendCommand (BrainClient.ClientState.mk false sent) cmd params
      = (some BrainClient.ClientErr.notConnected, BrainClient.ClientState.mk false sent)
    ∧ BrainClient.sendCommand (BrainClient.ClientState.mk true sent) cmd params
      = (none, BrainClient.ClientState.mk true
          (sent ++ [BrainClient.outFrame cmd params])) := by
  intro sent cmd params
  exact ⟨rfl, rfl⟩

/-- C4.  A well-formed inbound frame whose `type` is missing, not a string,
or not one of the recognized discriminants selects no handler from the
dispatch table; and every frame, recognized or not, is re-emitted verbatim
on the generic `message` channel. -/
theorem spec_c4 : ∀ frame : Frame,
    ((∀ t, lookupJ frame "type" = some (JVal.jstr t) →
        t ∉ BrainClient.recognizedTypes) →
      (BrainClient.handleMessage frame).1 = none)
    ∧ (BrainClient.handleMessage frame).2 = frame := by
  intro frame
  refine ⟨?_, rfl⟩
  intro h
  show BrainClient.dispatchOf (lookupJ frame "type") = none
  cases htv : lookupJ frame "type" with
  | none => rfl
  | some v =>
    cases v with
    | jstr t =>
      have ht := h t htv
      simp [BrainClient.recognizedTypes] at ht
      obtain ⟨h1, h2, h3, h4, h5, h6, h7, h8⟩ := ht
      simp [BrainClient.dispatchOf, h1, h2, h3, h4, h5, h6, h7, h8]
    | jnull => rfl
    | jundef => rfl
    | jbool b => rfl
    | jnum n => rfl
    | jarr xs => rfl
    | jobj fields => rfl

/-- Witness for C4: a frame with no `type` field selects no handler and is
re-emitted unchanged. -/
theorem spec_c4_witness :
    (BrainClient.handleMessage [("data", JVal.jstr "x")]).1 = none
    ∧ (BrainClient.handleMessage [("data", JVal.jstr "x")]).2
        = [("data", JVal.jstr "x")] :=
  ⟨(spec_c4 [("data", JVal.jstr "x")]).1
      (by intro t h; simp [lookupJ, List.lookup] at h),
   (spec_c4 [("data", JVal.jstr "x")]).2⟩

/-- C5.  Append/read round-trip: when the backing record of a session id
exists (a record whose own id is that session id — the invariant
`createSession` establishes and `addToHistory` preserves), appending an
entry and reading the history yields the prior history unchanged followed
by the entry extended with the fresh timestamp. -/
theorem spec_c5 : ∀ (st : SessionManager.Store) (now sessionId : String)
    (e : SessionManager.EntryIn) (s : SessionManager.Session),
    SessionManager.loadSession st sessionId = some s →
    s.id = sessionId →
    SessionManager.getHistory
        (SessionManager.addToHistory st now sessionId e) sessionId
      = s.history ++ [SessionManager.Entry.mk e.etype e.content now] := by
  intro st now sid e s hload hid
  unfold SessionManager.addToHistory
  rw [hload]
  unfold SessionManager.getHistory SessionManager.loadSession
    SessionManager.saveSession
  simp [hid]

/-- Witness for C5 on the concrete one-session store. -/
theorem spec_c5_witness :
    SessionManager.getHistory
        (SessionManager.addToHistory c5Store "t1" "s1"
          (SessionManager.EntryIn.mk "user" "hi")) "s1"
      = [] ++ [SessionManager.Entry.mk "user" "hi" "t1"] :=
  spec_c5 c5Store "t1" "s1" (SessionManager.EntryIn.mk "user" "hi")
    (SessionManager.Session.mk "s1" "t0" []) rfl rfl

/-- C6.  Append on a missing (or unreadable — both load as `none`) record
is a silent no-op: `addToHistory` is a total function that returns the
store unchanged. -/
theorem spec_c6 : ∀ (st : SessionManager.Store) (now sessionId : String)
    (e : SessionManager.EntryIn),
    SessionManager.loadSession st sessionId = none →
    SessionManager.addToHistory st now sessionId e = st := by
  intro st now sid e h
  unfold SessionManager.addToHistory
  rw [h]

/-- Witness for C6 on the empty store. -/
theorem spec_c6_witness :
    SessionManager.addToHistory (fun _ => none) "t1" "s1"
        (SessionManager.EntryIn.mk "user" "hi")
      = (fun _ => none) :=
  spec_c6 (fun _ => none) "t1" "s1" (SessionManager.EntryIn.mk "user" "hi") rfl

/-- The command dispatch of `processInput` never appends a `response` entry
(its only appends are the `query` entries of `handleQuery`). -/
theorem dispatch_all_no_response (sid input : String) (cmd : CommandParser.Command) :
    (BrainREPL.dispatch sid input cmd).all
      (fun a => !BrainREPL.Action.isResponseAppend a) = true := by
  cases cmd <;> (simp only [BrainREPL.dispatch]; try rfl)
  all_goals split <;> rfl

/-- `processInput` never appends a `response` entry. -/
theorem processInput_all_no_response (sid input : String) :
    (BrainREPL.processInput sid input).all
      (fun a => !BrainREPL.Action.isResponseAppend a) = true := by
  unfold BrainREPL.processInput
  rw [List.all_cons]
  refine (Bool.and_eq_true _ _).mpr ⟨rfl, ?_⟩
  split
  · rfl
  · split
    · rfl
    · split
      · rfl
      · split
        · rfl
        · split
          · rfl
          · split
            · rfl
            · exact dispatch_all_no_response sid input (CommandParser.parse input)

/-- C7.  In the REPL loop, every non-blank user line is appended to the
session history as a `user` entry as the very first action, before any
built-in command handling, classification or dispatch; the input loop never
appends a `response` entry; and a `response` entry is appended exactly when
an inbound frame with discriminant `query_response` arrives. -/
theorem spec_c7 :
    (∀ (raw sid : String), CommandParser.jsTrim raw.data ≠ [] →
      (BrainREPL.replLine sid raw).head? =
        some (BrainREPL.Action.appendHistory sid "user"
          (JVal.jstr (String.mk (CommandParser.jsTrim raw.data)))))
    ∧ (∀ (sid input sid2 : String) (c : JVal) (a : BrainREPL.Action),
        a ∈ BrainREPL.replLine sid input →
        a ≠ BrainREPL.Action.appendHistory sid2 "response" c)
    ∧ (∀ (sid : String) (frame : Frame) (c : JVal),
        BrainREPL.Action.appendHistory sid "response" c ∈
          BrainREPL.replHandleMessage sid frame →
        lookupJ frame "type" = some (JVal.jstr "query_response"))
    ∧ (∀ (sid : String) (frame : Frame),
        lookupJ frame "type" = some (JVal.jstr "query_response") →
        BrainREPL.replHandleMessage sid frame =
          [BrainREPL.Action.appendHistory sid "response"
            ((lookupJ frame "response").getD JVal.jundef)]) := by
  refine ⟨?_, ?_, ?_, ?_⟩
  · intro raw sid h
    have hne : (CommandParser.jsTrim raw.data).isEmpty = false := by
      simpa using h
    simp [BrainREPL.replLine, hne, BrainREPL.processInput]
  · intro sid input sid2 c a ha hEq
    subst hEq
    unfold BrainREPL.replLine at ha
    split at ha
    · simp at ha
    · have hall := processInput_all_no_response sid
        (String.mk (CommandParser.jsTrim input.data))
      rw [List.all_eq_true] at hall
      have hthis := hall _ ha
      simp [BrainREPL.Action.isResponseAppend] at hthis
  · intro sid frame c h
    unfold BrainREPL.replHandleMessage at h
    split at h
    · rename_i t heq
      split at h
      · rename_i hcond
        rw [heq, hcond]
      · simp at h
    · simp at h
  · intro sid frame h
    unfold BrainREPL.replHandleMessage
    rw [h]
    simp

/-- Witness for C7: the raw line `" hi "` leads with its `user` append, and
a concrete `query_response` frame appends exactly its `response` payload. -/
theorem spec_c7_witness :
    (BrainREPL.replLine "s" " hi ").head? =
      some (BrainREPL.Action.appendHistory "s" "user" (JVal.jstr "hi"))
    ∧ BrainREPL.replHandleMessage "s"
        [("type", JVal.jstr "query_response"), ("response", JVal.jstr "ok")] =
      [BrainREPL.Action.appendHistory "s" "response" (JVal.jstr "ok")] :=
  ⟨spec_c7.1 " hi " "s" (by decide),
   spec_c7.2.2.2 "s"
     [("type", JVal.jstr "query_response"), ("response", JVal.jstr "ok")] rfl⟩

namespace CommandParser

/-- Digits are not white space. -/
theorem digit_not_ws (c : Char) (h : isDigitChar c = true) : isWsChar c = false := by
  simp [isDigitChar] at h
  simp [isWsChar]
  omega

/-- A greedy `\s*` stops immediately on an all-digit suffix. -/
theorem star_ws_digit (d : List Char) (hd : ∀ c ∈ d, isDigitChar c = true) (caps : Caps) :
    mall true (.star false (.cls .wsc)) d caps = [(d, caps)] := by
  cases d with
  | nil => rfl
  | cons c rest =>
    have hc : isWsChar c = false := digit_not_ws c (hd c (by simp))
    show starRun (fun s2 c2 => mall true (.cls .wsc) s2 c2) false ((c :: rest).length + 1) (c :: rest) caps = _
    simp [starRun, mall, matchCls, hc]

/-- A greedy `\d*` on an all-digit suffix enumerates the suffixes in greedy
order. -/
theorem star_digit (d : List Char) (hd : ∀ c ∈ d, isDigitChar c = true) (caps : Caps) :
    mall true (.star false (.cls .digitc)) d caps
      = (tailsGreedy d).map (fun s => (s, caps)) := by
  induction d with
  | nil => rfl
  | cons c rest ih =>
    have hc : isDigitChar c = true := hd c (by simp)
    have hrest : ∀ c2 ∈ rest, isDigitChar c2 = true :=
      fun c2 h2 => hd c2 (by simp [h2])
    have ihx := ih hrest
    show starRun (fun s2 c2 => mall true (.cls .digitc) s2 c2) false
        ((c :: rest).length + 1) (c :: rest) caps = _
    rw [List.length_cons, starRun]
    rw [show mall true (.cls .digitc) (c :: rest) caps = [(rest, caps)] from by
      simp [mall, matchCls, hc]]
    simp only [List.filter_cons, List.length_cons, Nat.lt_succ_self,
      List.filter_nil, List.flatMap_cons, List.flatMap_nil,
      List.append_nil, Bool.false_eq_true, if_false, decide_True, if_true]
    rw [show starRun (fun s2 c2 => mall true (.cls .digitc) s2 c2) false
        (rest.length + 1) rest caps
      = mall true (.star false (.cls .digitc)) rest caps from rfl]
    rw [ihx]
    simp [tailsGreedy]

/-- Sequencing the greedy-suffix candidates with the `$` anchor keeps
exactly the full-consumption candidate (the greedy-first one). -/
theorem tailsGreedy_eos (l : List Char) (g : List Char → Caps) :
    ((tailsGreedy l).map (fun s => (s, g s))).flatMap
        (fun p => mall true .eos p.1 p.2)
      = [([], g [])] := by
  induction l with
  | nil => rfl
  | cons c rest ih =>
    rw [tailsGreedy, List.map_append, List.flatMap_append, ih]
    rfl

/-- Trimming does not change `"git log " ++ d` when `d` is a non-empty
digit string. -/
theorem jsTrim_gitlog (d : List Char) (hne : d ≠ [])
    (hd : ∀ c ∈ d, isDigitChar c = true) :
    jsTrim (("git log ").data ++ d) = ("git log ").data ++ d := by
  cases hrev : d.reverse with
  | nil => exact absurd (by simpa using hrev) hne
  | cons c0 t =>
    have hc0 : c0 ∈ d := by
      have : c0 ∈ d.reverse := by rw [hrev]; simp
      simpa using this
    have hws : isWsChar c0 = false := digit_not_ws c0 (hd c0 hc0)
    have hleft : (("git log ").data ++ d).dropWhile isWsChar
        = ("git log ").data ++ d := by
      rfl
    unfold jsTrim
    rw [hleft, List.reverse_append, hrev]
    rw [show ((c0 :: t) ++ ("git log ").data.reverse).dropWhile isWsChar
        = (c0 :: t) ++ ("git log ").data.reverse from by
      simp [List.dropWhile_cons, hws]]
    rw [List.reverse_append, List.reverse_reverse]
    rw [show (c0 :: t).reverse = d from by rw [← hrev, List.reverse_reverse]]

/-- Rule 11 (`/^git\s+log(?:\s+(\d+))?$/i`) matches `"git log " ++ d` for a
non-empty digit string `d`, capturing exactly `d` in group 1. -/
theorem ruleMatch_gitlog (d : List Char) (hne : d ≠ [])
    (hd : ∀ c ∈ d, isDigitChar c = true) :
    ruleMatch rule_git_log_full (("git log ").data ++ d)
      = some [none, some d, none] := by
  obtain ⟨c, rest, rfl⟩ : ∃ c rest, d = c :: rest := by
    cases d with
    | nil => exact absurd rfl hne
    | cons c rest => exact ⟨c, rest, rfl⟩
  have hc : isDigitChar c = true := hd c (by simp)
  have hrest : ∀ c2 ∈ rest, isDigitChar c2 = true :=
    fun c2 h2 => hd c2 (by simp [h2])
  have W2 : mall true ws1 (' ' :: c :: rest) caps0
      = [((c :: rest : List Char), caps0)] := by
    show (mall true (.cls .wsc) (' ' :: c :: rest) caps0).flatMap
        (fun p => mall true (.star false (.cls .wsc)) p.1 p.2) = _
    rw [show mall true (.cls .wsc) (' ' :: c :: rest) caps0
        = [((c :: rest : List Char), caps0)] from rfl]
    simp only [List.flatMap_cons, List.flatMap_nil, List.append_nil]
    exact star_ws_digit (c :: rest) hd caps0
  have P1 : mall true digPlus (c :: rest) caps0
      = (tailsGreedy rest).map (fun s => (s, caps0)) := by
    show (mall true (.cls .digitc) (c :: rest) caps0).flatMap
        (fun p => mall true (.star false (.cls .digitc)) p.1 p.2) = _
    rw [show mall true (.cls .digitc) (c :: rest) caps0 = [(rest, caps0)] from by
      simp [mall, matchCls, hc]]
    simp only [List.flatMap_cons, List.flatMap_nil, List.append_nil]
    exact star_digit rest hrest caps0
  have P2 : mall true (.group 1 digPlus) (c :: rest) caps0
      = (tailsGreedy rest).map (fun s =>
          (s, caps0.set 1 (some ((c :: rest).take ((c :: rest).length - s.length))))) := by
    show (mall true digPlus (c :: rest) caps0).map
        (fun p => (p.1, p.2.set 1
          (some ((c :: rest).take ((c :: rest).length - p.1.length))))) = _
    rw [P1, List.map_map]
    rfl
  have O1 : mall true (.cat (rOpt (.cat ws1 (.group 1 digPlus))) .eos)
        (' ' :: c :: rest) caps0
      = [(([] : List Char), caps0.set 1 (some (c :: rest)))] := by
    show (mall true (rOpt (.cat ws1 (.group 1 digPlus))) (' ' :: c :: rest) caps0).flatMap
        (fun p => mall true .eos p.1 p.2) = _
    rw [show mall true (rOpt (.cat ws1 (.group 1 digPlus))) (' ' :: c :: rest) caps0
        = (mall true ws1 (' ' :: c :: rest) caps0).flatMap
            (fun p => mall true (.group 1 digPlus) p.1 p.2)
          ++ [((' ' :: c :: rest : List Char), caps0)] from rfl]
    rw [W2]
    simp only [List.flatMap_cons, List.flatMap_nil, List.append_nil]
    rw [P2, List.flatMap_append,
      tailsGreedy_eos rest (fun s =>
        caps0.set 1 (some ((c :: rest).take ((c :: rest).length - s.length)))),
      show ([((' ' :: c :: rest : List Char), caps0)].flatMap
        (fun p => mall true .eos p.1 p.2)) = [] from rfl,
      List.append_nil]
    simp
  show headCaps ((mall true (rstr "git")
      ('g' :: 'i' :: 't' :: ' ' :: 'l' :: 'o' :: 'g' :: ' ' :: c :: rest) caps0).flatMap
      (fun p => mall true (.cat ws1 (.cat (rstr "log")
        (.cat (rOpt (.cat ws1 (.group 1 digPlus))) .eos))) p.1 p.2))
    = some [none, some (c :: rest), none]
  rw [show mall true (rstr "git") ('g' :: 'i' :: 't' :: ' ' :: 'l' :: 'o' :: 'g' :: ' ' :: c :: rest) caps0
      = [((' ' :: 'l' :: 'o' :: 'g' :: ' ' :: c :: rest : List Char), caps0)] from rfl]
  simp only [List.flatMap_cons, List.flatMap_nil, List.append_nil]
  rw [show mall true (.cat ws1 (.cat (rstr "log")
        (.cat (rOpt (.cat ws1 (.group 1 digPlus))) .eos)))
        (' ' :: 'l' :: 'o' :: 'g' :: ' ' :: c :: rest) caps0
      = (mall true ws1 (' ' :: 'l' :: 'o' :: 'g' :: ' ' :: c :: rest) caps0).flatMap
          (fun p => mall true (.cat (rstr "log")
            (.cat (rOpt (.cat ws1 (.group 1 digPlus))) .eos)) p.1 p.2) from rfl]
  rw [show mall true ws1 (' ' :: 'l' :: 'o' :: 'g' :: ' ' :: c :: rest) caps0
      = [(('l' :: 'o' :: 'g' :: ' ' :: c :: rest : List Char), caps0)] from rfl]
  simp only [List.flatMap_cons, List.flatMap_nil, List.append_nil]
  rw [show mall true (.cat (rstr "log")
        (.cat (rOpt (.cat ws1 (.group 1 digPlus))) .eos))
        ('l' :: 'o' :: 'g' :: ' ' :: c :: rest) caps0
      = (mall true (rstr "log") ('l' :: 'o' :: 'g' :: ' ' :: c :: rest) caps0).flatMap
          (fun p => mall true (.cat (rOpt (.cat ws1 (.group 1 digPlus))) .eos) p.1 p.2) from rfl]
  rw [show mall true (rstr "log") ('l' :: 'o' :: 'g' :: ' ' :: c :: rest) caps0
      = [((' ' :: c :: rest : List Char), caps0)] from rfl]
  simp only [List.flatMap_cons, List.flatMap_nil, List.append_nil]
  rw [O1]
  rfl

/-- `parse ("git log " ++ d)` for a non-empty digit string `d` yields
`git_log` with the limit `parseInt d`. -/
theorem parse_gitlog_digits (d : List Char) (hne : d ≠ [])
    (hd : ∀ c ∈ d, isDigitChar c = true) :
    parse (String.mk (("git log ").data ++ d)) = Command.git_log (digitsToNat d) := by
  have h11 := ruleMatch_gitlog d hne hd
  show parseCore rules (jsTrim (String.mk (("git log ").data ++ d)).data) = _
  rw [show (String.mk (("git log ").data ++ d)).data = ("git log ").data ++ d from rfl]
  rw [jsTrim_gitlog d hne hd]
  have h0 : ruleMatch rule_read_file (("git log ").data ++ d) = none := rfl
  have h1 : ruleMatch rule_write_file (("git log ").data ++ d) = none := rfl
  have h2 : ruleMatch rule_edit_file (("git log ").data ++ d) = none := rfl
  have h3 : ruleMatch rule_list_directory (("git log ").data ++ d) = none := rfl
  have h4 : ruleMatch rule_search_files_q (("git log ").data ++ d) = none := rfl
  have h5 : ruleMatch rule_search_files_w (("git log ").data ++ d) = none := rfl
  have h6 : ruleMatch rule_create_directory (("git log ").data ++ d) = none := rfl
  have h7 : ruleMatch rule_git_status_full (("git log ").data ++ d) = none := rfl
  have h8 : ruleMatch rule_git_status_gen (("git log ").data ++ d) = none := rfl
  have h9 : ruleMatch rule_git_diff_full (("git log ").data ++ d) = none := rfl
  have h10 : ruleMatch rule_git_diff_gen (("git log ").data ++ d) = none := rfl
  simp only [rules, parseCore, h0, h1, h2, h3, h4, h5, h6, h7, h8, h9, h10, h11]
  rfl

end CommandParser

open CommandParser in
/-- C10.  Implicit default limit of the git-log rules: phrasings without a
numeric argument parse to `git_log` with limit 10, and `"git log " ++ d`
for any non-empty decimal digit string `d` parses to `git_log` with limit
`parseInt d` (`digitsToNat`). -/
theorem spec_c10 :
    parse "git log" = Command.git_log 10
    ∧ parse "log" = Command.git_log 10
    ∧ parse "history" = Command.git_log 10
    ∧ parse "log 7" = Command.git_log 7
    ∧ parse "git log 25" = Command.git_log 25
    ∧ (∀ d : List Char, d ≠ [] → (∀ c ∈ d, isDigitChar c = true) →
        parse (String.mk (("git log ").data ++ d))
          = Command.git_log (digitsToNat d)) := by
  refine ⟨by decide, by decide, by decide, by decide, by decide, ?_⟩
  exact parse_gitlog_digits

open CommandParser in
/-- Witness for C10 at the digit string `"42"`. -/
theorem spec_c10_witness :
    parse (String.mk (("git log ").data ++ ['4', '2']))
      = Command.git_log (digitsToNat ['4', '2']) :=
  spec_c10.2.2.2.2.2 ['4', '2'] (by decide) (by decide)
